import Mathlib

/-!
Verification of the cash-system control plane (CCNET / LCDM / ccTalk / SSP
drivers and the payment coordinator).

Each definition below is a shallow embedding of one function of the Python
source; the file name and line numbers of the embedded code are given in the
doc comment of each definition.  Bytes are modelled as `Nat` (Python `bytes`
elements are `0 ≤ b < 256`); monetary amounts and repository counters are
modelled as `Int` (Python integers, which may be negative when read back from
the store).
-/

namespace CashSystem

/-! ## CCNET CRC16 (cashcode_v3_driver/ccnet/crc.py) -/

/-- CRC polynomial 0x08408, from `configs.py` / `ccnet/constants.py`. -/
def CRC_POLYNOMIAL : Nat := 0x08408

/-- One bit step of the CCNET CRC16 loop (`crc.py` lines 34-38):
if the low bit is set, shift right and xor the polynomial, else shift right. -/
def ccnetBit (crc : Nat) : Nat :=
  if crc &&& 1 = 1 then (crc >>> 1) ^^^ CRC_POLYNOMIAL else crc >>> 1

/-- One byte step of the CCNET CRC16 loop (`crc.py` lines 32-38):
xor the byte into the crc, then run eight bit steps. -/
def ccnetByte (crc b : Nat) : Nat := ccnetBit^[8] (crc ^^^ b)

/-- The CCNET CRC16 register after feeding `data`, starting from `crc`. -/
def ccnetLoop (crc : Nat) (data : List Nat) : Nat := data.foldl ccnetByte crc

/-- `calculate_crc16` (`crc.py` lines 11-40): CRC over `data`, returned as two
little-endian bytes. -/
def calculate_crc16 (data : List Nat) : List Nat :=
  let crc := ccnetLoop 0 data
  [crc % 256, (crc >>> 8) % 256]

/-- `verify_crc16` (`crc.py` lines 43-77): reject packets shorter than 5
bytes, then check that the CRC over the whole packet is zero. -/
def verify_crc16 (data : List Nat) : Bool :=
  if data.length < 5 then false
  else decide (ccnetLoop 0 data = 0)

lemma ccnetBit_two_mul (k : Nat) : ccnetBit (2 * k) = k := by
  unfold ccnetBit
  have h1 : 2 * k &&& 1 = 0 := by
    simp [Nat.and_one_is_mod, Nat.mul_mod_right]
  rw [h1]
  simp [Nat.shiftRight_eq_div_pow]

lemma ccnetBit_iter8_mul256 (k : Nat) : ccnetBit^[8] (256 * k) = k := by
  have h : (256 : Nat) * k = 2 * (2 * (2 * (2 * (2 * (2 * (2 * (2 * k))))))) := by ring
  rw [h]
  simp only [Function.iterate_succ_apply, Function.iterate_zero_apply]
  rw [ccnetBit_two_mul, ccnetBit_two_mul, ccnetBit_two_mul, ccnetBit_two_mul,
      ccnetBit_two_mul, ccnetBit_two_mul, ccnetBit_two_mul, ccnetBit_two_mul]

lemma xor_mod_256 (s : Nat) : s ^^^ s % 256 = 256 * (s / 256) := by
  have h256 : (256 : Nat) = 2 ^ 8 := by norm_num
  apply Nat.eq_of_testBit_eq
  intro i
  rw [h256, Nat.testBit_xor, Nat.testBit_mod_two_pow, Nat.testBit_mul_pow_two,
      ← Nat.shiftRight_eq_div_pow, Nat.testBit_shiftRight]
  by_cases hi : i < 8
  · simp [hi, Nat.not_le_of_lt hi]
  · have h8 : 8 + (i - 8) = i := by omega
    simp [hi, Nat.le_of_not_lt, h8]

lemma ccnetBit_lt (c : Nat) (h : c < 65536) : ccnetBit c < 65536 := by
  unfold ccnetBit
  have hs : c >>> 1 < 65536 := by
    rw [Nat.shiftRight_eq_div_pow]
    omega
  split
  · have h1 : c >>> 1 < 2 ^ 16 := by norm_num at hs ⊢; exact hs
    have h2 : CRC_POLYNOMIAL < 2 ^ 16 := by norm_num [CRC_POLYNOMIAL]
    have := Nat.xor_lt_two_pow h1 h2
    norm_num at this ⊢
    exact this
  · exact hs

lemma ccnetBit_iter_lt (n c : Nat) (h : c < 65536) : ccnetBit^[n] c < 65536 := by
  induction n generalizing c with
  | zero => simpa using h
  | succ n ih =>
    rw [Function.iterate_succ_apply]
    exact ih _ (ccnetBit_lt c h)

lemma ccnetByte_lt (c b : Nat) (hc : c < 65536) (hb : b < 256) :
    ccnetByte c b < 65536 := by
  unfold ccnetByte
  apply ccnetBit_iter_lt
  have h1 : c < 2 ^ 16 := by norm_num at hc ⊢; exact hc
  have h2 : b < 2 ^ 16 := by norm_num; omega
  have := Nat.xor_lt_two_pow h1 h2
  norm_num at this ⊢
  exact this

lemma ccnetLoop_lt (data : List Nat) (hd : ∀ b ∈ data, b < 256) (c : Nat)
    (hc : c < 65536) : ccnetLoop c data < 65536 := by
  induction data generalizing c with
  | nil => simpa [ccnetLoop] using hc
  | cons x xs ih =>
    have hx : x < 256 := hd x (by simp)
    have hxs : ∀ b ∈ xs, b < 256 := fun b hb => hd b (by simp [hb])
    simpa [ccnetLoop] using ih hxs (ccnetByte c x) (ccnetByte_lt c x hc hx)

lemma ccnetByte_low (c : Nat) : ccnetByte c (c % 256) = c / 256 := by
  unfold ccnetByte
  rw [xor_mod_256, ccnetBit_iter8_mul256]

lemma ccnetByte_self (c : Nat) : ccnetByte c c = 0 := by
  unfold ccnetByte
  rw [Nat.xor_self]
  have h : (0 : Nat) = 256 * 0 := by norm_num
  rw [h, ccnetBit_iter8_mul256]

lemma ccnet_append_crc_zero (data : List Nat) (hd : ∀ b ∈ data, b < 256) :
    ccnetLoop 0 (data ++ calculate_crc16 data) = 0 := by
  have hbound : ccnetLoop 0 data < 65536 := ccnetLoop_lt data hd 0 (by norm_num)
  unfold calculate_crc16
  rw [ccnetLoop, List.foldl_append]
  have hfold : List.foldl ccnetByte 0 data = ccnetLoop 0 data := rfl
  rw [hfold]
  set c := ccnetLoop 0 data with hc
  have hhi : (c >>> 8) % 256 = c / 256 := by
    rw [Nat.shiftRight_eq_div_pow]
    have : c / 2 ^ 8 < 256 := by
      apply Nat.div_lt_of_lt_mul
      norm_num
      omega
    norm_num at this ⊢
    omega
  show ccnetByte (ccnetByte c (c % 256)) ((c >>> 8) % 256) = 0
  rw [hhi, ccnetByte_low, ccnetByte_self]

/-- Claim C6 (amended): for every byte sequence `data`, the CCNET CRC16 over
`data ++ calculate_crc16 data` is zero; `verify_crc16` additionally enforces a
minimum packet length of 5 bytes, so it returns true exactly on sequences with
at least 3 data bytes.  In particular the CRC of `02 03 06 33` is `DA 81` and
the CRC over the whole six-byte frame is zero. -/
theorem crc16_append_self_verifies :
    (∀ data : List Nat, (∀ b ∈ data, b < 256) →
      ccnetLoop 0 (data ++ calculate_crc16 data) = 0) ∧
    (∀ data : List Nat, (∀ b ∈ data, b < 256) → 3 ≤ data.length →
      verify_crc16 (data ++ calculate_crc16 data) = true) ∧
    calculate_crc16 [0x02, 0x03, 0x06, 0x33] = [0xDA, 0x81] ∧
    verify_crc16 [0x02, 0x03, 0x06, 0x33, 0xDA, 0x81] = true := by
  refine ⟨fun data hd => ccnet_append_crc_zero data hd, fun data hd hlen => ?_, by decide, by decide⟩
  unfold verify_crc16
  rw [ccnet_append_crc_zero data hd]
  have hlen2 : (data ++ calculate_crc16 data).length = data.length + 2 := by
    simp [calculate_crc16]
  rw [hlen2]
  simp
  omega

/-- Claim C6 counterexample: for the empty byte sequence, `verify_crc16` of
`[] ++ calculate_crc16 []` is false (the packet is shorter than the 5-byte
minimum), so the claim does not hold for every byte sequence. -/
theorem crc16_verify_fails_on_empty :
    calculate_crc16 [] = [0, 0] ∧ verify_crc16 ([] ++ calculate_crc16 []) = false := by
  decide

/-- Claim C6 witness. -/
theorem crc16_append_self_verifies_witness :
    ccnetLoop 0 ([0x02, 0x03, 0x06, 0x33] ++ calculate_crc16 [0x02, 0x03, 0x06, 0x33]) = 0 ∧
    verify_crc16 ([0x02, 0x03, 0x06, 0x33] ++ calculate_crc16 [0x02, 0x03, 0x06, 0x33]) = true :=
  ⟨crc16_append_self_verifies.1 [0x02, 0x03, 0x06, 0x33] (by decide),
   crc16_append_self_verifies.2.1 [0x02, 0x03, 0x06, 0x33] (by decide) (by decide)⟩

/-! ## Payment state machine and payment service
(devices_v2/domain/payment_state_machine.py, devices_v2/application/payment_service.py,
devices_v2/infrastructure/redis_repository.py, devices_v2/infrastructure/settings.py) -/

/-- Payment phases (`payment_state_machine.py` lines 24-34). -/
inductive PaymentPhase where
  | IDLE
  | VALIDATING
  | ACCEPTING
  | COMPLETING
  | DISPENSING
  | COMPLETED
  | CANCELLED
  | FAILED
deriving DecidableEq

/-- Payment context (`payment_state_machine.py` lines 42-85).  Amounts are
Python integers, modelled as `Int`. -/
structure PaymentContext where
  target_amount : Int
  collected_amount : Int
  change_amount : Int
  phase : PaymentPhase
  active_devices : List String
  errors : List String
deriving DecidableEq

/-- `PaymentContext.is_complete` (`payment_state_machine.py` lines 57-60). -/
def PaymentContext.is_complete (c : PaymentContext) : Bool :=
  decide (0 < c.target_amount) && decide (c.target_amount ≤ c.collected_amount)

/-- `PaymentContext.overpayment` (`payment_state_machine.py` lines 67-70). -/
def PaymentContext.overpayment (c : PaymentContext) : Int :=
  max 0 (c.collected_amount - c.target_amount)

/-- `PaymentContext.add_payment` (`payment_state_machine.py` lines 72-76). -/
def PaymentContext.addPayment (c : PaymentContext) (amount : Int) : PaymentContext :=
  let c1 := { c with collected_amount := c.collected_amount + amount }
  if c1.is_complete then { c1 with change_amount := c1.overpayment } else c1

/-- `PaymentContext.reset` (`payment_state_machine.py` lines 78-85). -/
def PaymentContext.resetCtx : PaymentContext :=
  { target_amount := 0, collected_amount := 0, change_amount := 0,
    phase := PaymentPhase.IDLE, active_devices := [], errors := [] }

/-- Combined observable state of the payment service: the state-machine
context, the two payment counters of the repository (`target_amount`,
`collected_amount`), the enabled flags of the two acceptor devices, the
outbound websocket events (as name and two integer payload fields), the
amounts passed to `dispense_change`, and the number of times the
payment-received callback has run. -/
structure SystemState where
  ctx : PaymentContext
  repoTarget : Int
  repoCollected : Int
  billAcceptorEnabled : Bool
  coinAcceptorEnabled : Bool
  wsEvents : List (String × Int × Int)
  dispenseCalls : List Int
  paymentCallbackRuns : Nat
deriving DecidableEq

/-- `PaymentStateMachine.complete` (`payment_state_machine.py` lines 241-263):
only in the COMPLETING or DISPENSING phase the context is reset (the phase is
set to COMPLETED and then `reset` puts it back to IDLE). -/
def smComplete (s : SystemState) : SystemState :=
  if s.ctx.phase = PaymentPhase.COMPLETING ∨ s.ctx.phase = PaymentPhase.DISPENSING then
    { s with ctx := PaymentContext.resetCtx }
  else s

/-- `PaymentService._on_payment_complete` (`payment_service.py` lines 254-282):
disable both acceptors, read collected / change from the context, reset the
repository payment counters (`PaymentStateRepository.reset`,
`redis_repository.py` lines 338-341), publish `successPayment`, call
`dispense_change` when change is positive, then complete the state machine. -/
def onPaymentComplete (s : SystemState) : SystemState :=
  let s1 := { s with billAcceptorEnabled := false, coinAcceptorEnabled := false }
  let collected := s1.ctx.collected_amount
  let change := s1.ctx.change_amount
  let s2 := { s1 with repoTarget := 0, repoCollected := 0 }
  let s3 := { s2 with wsEvents := s2.wsEvents ++ [("successPayment", collected, change)] }
  let s4 := if 0 < change then { s3 with dispenseCalls := s3.dispenseCalls ++ [change] } else s3
  smComplete s4

/-- `PaymentStateMachine.add_payment` (`payment_state_machine.py` lines
172-201) wired to the service callbacks as in `PaymentService.__init__`
(`payment_service.py` lines 65-67): when the phase is not ACCEPTING the event
is discarded; otherwise the context accumulates the amount, the
payment-received callback runs, and on completion the phase moves to
COMPLETING and `_on_payment_complete` runs. -/
def smAddPayment (s : SystemState) (amount : Int) : SystemState :=
  if s.ctx.phase ≠ PaymentPhase.ACCEPTING then s
  else
    let ctx1 := s.ctx.addPayment amount
    let s1 := { s with ctx := ctx1, paymentCallbackRuns := s.paymentCallbackRuns + 1 }
    if ctx1.is_complete then
      onPaymentComplete { s1 with ctx := { ctx1 with phase := PaymentPhase.COMPLETING } }
    else s1

/-- Claim C1: when a payment completes because the collected amount has
reached the target, both acceptors are disabled, the repository payment
counters are reset to 0, `successPayment` carries the collected amount, the
change equals `max 0 (collected - target)`, and `dispense_change` is invoked
exactly when that change is positive. -/
theorem payment_completion_effects (s : SystemState) (v : Int)
    (hacc : s.ctx.phase = PaymentPhase.ACCEPTING)
    (htgt : 0 < s.ctx.target_amount)
    (hreach : s.ctx.target_amount ≤ s.ctx.collected_amount + v) :
    let r := smAddPayment s v
    let collected := s.ctx.collected_amount + v
    let change := max 0 (collected - s.ctx.target_amount)
    r.billAcceptorEnabled = false ∧
    r.coinAcceptorEnabled = false ∧
    r.repoTarget = 0 ∧
    r.repoCollected = 0 ∧
    r.wsEvents = s.wsEvents ++ [("successPayment", collected, change)] ∧
    r.dispenseCalls =
      (if 0 < change then s.dispenseCalls ++ [change] else s.dispenseCalls) := by
  intro r collected change
  have h1 : (decide (0 < s.ctx.target_amount) &&
      decide (s.ctx.target_amount ≤ s.ctx.collected_amount + v)) = true := by
    simp [htgt, hreach]
  simp only [r, collected, change, smAddPayment, hacc, ne_eq, not_true_eq_false,
    if_false, PaymentContext.addPayment, PaymentContext.is_complete,
    PaymentContext.overpayment, h1, if_true, onPaymentComplete, smComplete]
  norm_num
  split_ifs <;> simp_all

/-- Claim C1 witness. -/
theorem payment_completion_effects_witness :
    let s0 : SystemState :=
      { ctx := { target_amount := 15000, collected_amount := 10000, change_amount := 0,
                 phase := PaymentPhase.ACCEPTING, active_devices := [], errors := [] },
        repoTarget := 15000, repoCollected := 10000,
        billAcceptorEnabled := true, coinAcceptorEnabled := true,
        wsEvents := [], dispenseCalls := [], paymentCallbackRuns := 2 }
    (smAddPayment s0 10000).billAcceptorEnabled = false ∧
    (smAddPayment s0 10000).coinAcceptorEnabled = false ∧
    (smAddPayment s0 10000).repoTarget = 0 ∧
    (smAddPayment s0 10000).repoCollected = 0 ∧
    (smAddPayment s0 10000).wsEvents = [("successPayment", 20000, 5000)] ∧
    (smAddPayment s0 10000).dispenseCalls = [5000] := by
  intro s0
  have h := payment_completion_effects s0 10000 (by decide) (by decide) (by decide)
  simpa using h

/-- Claim C10: when the phase is anything other than ACCEPTING, `add_payment`
discards the credit event - the whole observable state (context fields,
repository counters, acceptor flags, events, callbacks) is unchanged. -/
theorem add_payment_ignored_when_not_accepting (s : SystemState) (v : Int)
    (h : s.ctx.phase ≠ PaymentPhase.ACCEPTING) :
    smAddPayment s v = s := by
  simp [smAddPayment, h]

/-- Claim C10 witness. -/
theorem add_payment_ignored_when_not_accepting_witness :
    let s0 : SystemState :=
      { ctx := { target_amount := 5000, collected_amount := 100, change_amount := 0,
                 phase := PaymentPhase.IDLE, active_devices := [], errors := [] },
        repoTarget := 5000, repoCollected := 100,
        billAcceptorEnabled := false, coinAcceptorEnabled := false,
        wsEvents := [], dispenseCalls := [], paymentCallbackRuns := 0 }
    smAddPayment s0 100 = s0 :=
  add_payment_ignored_when_not_accepting _ 100 (by decide)

/-! ## Payment start validation (payment_service.py, redis_repository.py, settings.py) -/

/-- `PaymentSettings.min_dispenser_box_count` (`settings.py` line 59). -/
def min_dispenser_box_count : Int := 50

/-- `BillAcceptorState.is_full` (`redis_repository.py` lines 94-97):
full only when a positive capacity is configured and the bill count has
reached it. -/
def bill_acceptor_is_full (bill_count max_bill_count : Int) : Bool :=
  decide (0 < max_bill_count) && decide (max_bill_count ≤ bill_count)

/-- `BillAcceptorState.remaining_capacity` (`redis_repository.py` lines
99-104): the maximum 32-bit integer when no positive capacity is configured,
else the remaining headroom clamped at zero. -/
def remaining_capacity (bill_count max_bill_count : Int) : Int :=
  if max_bill_count ≤ 0 then 2 ^ 31 - 1
  else max 0 (max_bill_count - bill_count)

/-- The repository-backed inputs read by `_validate_payment_start`. -/
structure ValidationInput where
  payment_in_progress : Bool
  is_test_mode : Bool
  upper_box_count : Int
  lower_box_count : Int
  bill_count : Int
  max_bill_count : Int
deriving DecidableEq

/-- Result of a validation or command: a success flag and a message. -/
structure CommandResult where
  success : Bool
  message : String
deriving DecidableEq

/-- `PaymentService._validate_payment_start` (`payment_service.py` lines
132-160): the in-progress check runs first; the test-mode flag then skips the
dispenser-stock and acceptor-capacity checks. -/
def validate_payment_start (v : ValidationInput) : CommandResult :=
  if v.payment_in_progress then { success := false, message := "Payment already in progress" }
  else if v.is_test_mode then { success := true, message := "OK" }
  else if v.upper_box_count < min_dispenser_box_count ∨
          v.lower_box_count < min_dispenser_box_count then
    { success := false, message := "Insufficient bills in dispenser" }
  else if bill_acceptor_is_full v.bill_count v.max_bill_count then
    { success := false, message := "Bill acceptor is full" }
  else { success := true, message := "OK" }

/-- `PaymentService.start_payment` (`payment_service.py` lines 84-130):
rejects a non-positive amount, then runs the validation, then enables the
acceptors (failing when none could be enabled), then starts the state machine
(which raises when a payment is already in progress). -/
def start_payment (amount : Int) (v : ValidationInput)
    (enabled_devices : List String) : CommandResult :=
  if amount ≤ 0 then { success := false, message := "Invalid payment amount" }
  else
    let r := validate_payment_start v
    if r.success = false then { success := false, message := r.message }
    else if enabled_devices = [] then
      { success := false, message := "Failed to start payment devices" }
    else if v.payment_in_progress then
      { success := false, message := "Payment already in progress" }
    else { success := true, message := "Accepting payment" }

/-- Claim C3 (amended): `start_payment` fails with `success = false` and a
message when a payment is already in progress (this check is applied even in
test mode), and, when test mode is off, when either dispenser cassette count
is below 50 or the acceptor is full (`max_bill_count > 0` and
`bill_count ≥ max_bill_count`); in test mode the dispenser-stock and
acceptor-capacity checks are skipped, so validation succeeds whenever no
payment is in progress. -/
theorem start_payment_precondition_failures (amount : Int) (v : ValidationInput)
    (devices : List String) :
    (v.payment_in_progress = true →
      (start_payment amount v devices).success = false ∧
      (start_payment amount v devices).message ≠ "") ∧
    (v.payment_in_progress = false → v.is_test_mode = false →
      (v.upper_box_count < 50 ∨ v.lower_box_count < 50 ∨
        bill_acceptor_is_full v.bill_count v.max_bill_count = true) →
      (start_payment amount v devices).success = false ∧
      (start_payment amount v devices).message ≠ "") ∧
    (v.payment_in_progress = false → v.is_test_mode = true →
      validate_payment_start v = { success := true, message := "OK" }) := by
  refine ⟨fun hp => ?_, fun hp ht hviol => ?_, fun hp ht => ?_⟩
  · unfold start_payment validate_payment_start
    by_cases ha : amount ≤ 0 <;> simp [ha, hp]
  · unfold start_payment validate_payment_start
    by_cases ha : amount ≤ 0
    · simp [ha]
    · rcases hviol with h | h | h
      · simp [ha, hp, ht, min_dispenser_box_count, h]
      · have : v.upper_box_count < min_dispenser_box_count ∨
            v.lower_box_count < min_dispenser_box_count := Or.inr (by
          simpa [min_dispenser_box_count] using h)
        simp only [ha, if_false, hp, ht, Bool.false_eq_true, this, if_true]
        simp
      · by_cases hd : v.upper_box_count < min_dispenser_box_count ∨
            v.lower_box_count < min_dispenser_box_count
        · simp [ha, hp, ht, hd]
        · simp [ha, hp, ht, hd, h]
  · simp [validate_payment_start, hp, ht]

/-- Claim C3 counterexample: in test mode with a payment already in progress
(and all capacity inputs healthy), `start_payment` still fails - the
in-progress precondition is not skipped by the test-mode flag, contrary to
the claim that all precondition checks are skipped in test mode. -/
theorem start_payment_test_mode_still_checks_in_progress :
    (start_payment 1000
      { payment_in_progress := true, is_test_mode := true,
        upper_box_count := 100, lower_box_count := 100,
        bill_count := 0, max_bill_count := 1450 }
      ["bill_acceptor"]).success = false := by
  decide

/-- Claim C3 witness. -/
theorem start_payment_precondition_failures_witness :
    ((start_payment 1000
        { payment_in_progress := false, is_test_mode := false,
          upper_box_count := 10, lower_box_count := 100,
          bill_count := 0, max_bill_count := 1450 }
        ["bill_acceptor"]).success = false) ∧
    (validate_payment_start
        { payment_in_progress := false, is_test_mode := true,
          upper_box_count := 0, lower_box_count := 0,
          bill_count := 9999, max_bill_count := 10 } =
      { success := true, message := "OK" }) := by
  constructor
  · exact ((start_payment_precondition_failures 1000
      { payment_in_progress := false, is_test_mode := false,
        upper_box_count := 10, lower_box_count := 100,
        bill_count := 0, max_bill_count := 1450 }
      ["bill_acceptor"]).2.1 rfl rfl (Or.inl (by decide))).1
  · exact (start_payment_precondition_failures 1000
      { payment_in_progress := false, is_test_mode := true,
        upper_box_count := 0, lower_box_count := 0,
        bill_count := 9999, max_bill_count := 10 }
      ["bill_acceptor"]).2.2 rfl rfl

/-- Claim C9: with a zero or negative `max_bill_count` the acceptor is never
full, its remaining capacity reports the maximum 32-bit integer, and the
capacity precondition of `start_payment` passes regardless of the bill
count. -/
theorem acceptor_never_full_when_unlimited (bc m ucnt lcnt : Int)
    (hm : m ≤ 0) (hu : 50 ≤ ucnt) (hl : 50 ≤ lcnt) :
    bill_acceptor_is_full bc m = false ∧
    remaining_capacity bc m = 2 ^ 31 - 1 ∧
    validate_payment_start
      { payment_in_progress := false, is_test_mode := false,
        upper_box_count := ucnt, lower_box_count := lcnt,
        bill_count := bc, max_bill_count := m } =
      { success := true, message := "OK" } := by
  have hfull : bill_acceptor_is_full bc m = false := by
    simp [bill_acceptor_is_full]
    omega
  refine ⟨hfull, by simp [remaining_capacity, hm], ?_⟩
  unfold validate_payment_start
  simp [min_dispenser_box_count, hfull]
  omega

/-- Claim C9 witness. -/
theorem acceptor_never_full_when_unlimited_witness :
    bill_acceptor_is_full 123456 0 = false ∧
    remaining_capacity 123456 0 = 2 ^ 31 - 1 ∧
    validate_payment_start
      { payment_in_progress := false, is_test_mode := false,
        upper_box_count := 60, lower_box_count := 70,
        bill_count := 123456, max_bill_count := 0 } =
      { success := true, message := "OK" } :=
  acceptor_never_full_when_unlimited 123456 0 60 70 (by decide) (by decide) (by decide)

/-! ## Bill dispenser change planning
(devices_v2/domain/device_adapters.py, devices_v2/infrastructure/redis_repository.py) -/

/-- `BillDispenserState` (`redis_repository.py` lines 171-186): denominations
and counts of the two cassettes. -/
structure BillDispenserState where
  upper_box_value : Int
  lower_box_value : Int
  upper_box_count : Int
  lower_box_count : Int
deriving DecidableEq

/-- The bill counts requested from the dispenser by
`BillDispenserAdapter.dispense` (`device_adapters.py` lines 247-276):
Python `//` and `%` are floor division and floor modulus, hence `Int.fdiv`
and `Int.fmod`. -/
def dispensePlan (st : BillDispenserState) (amount : Int) : Int × Int :=
  if st.upper_box_value ≤ 0 ∧ st.lower_box_value ≤ 0 then (0, 0)
  else
    let higher_val := max st.upper_box_value st.lower_box_value
    let lower_val_actual := min st.upper_box_value st.lower_box_value
    let higher_bills := if 0 < higher_val then Int.fdiv amount higher_val else 0
    let remaining := if 0 < higher_val then Int.fmod amount higher_val else amount
    let lower_bills := if 0 < lower_val_actual then Int.fdiv remaining lower_val_actual else 0
    let ul := if st.lower_box_value ≤ st.upper_box_value then (higher_bills, lower_bills)
              else (lower_bills, higher_bills)
    (min ul.1 st.upper_box_count, min ul.2 st.lower_box_count)

/-- `BillDispenserRepository.subtract_bills` (`redis_repository.py` lines
232-237): stored counts are reduced by the exit counts, clamped at zero. -/
def subtract_bills (uc lc ue le : Int) : Int × Int :=
  (max 0 (uc - ue), max 0 (lc - le))

/-- The monetary amount reported dispensed (`device_adapters.py` line 290). -/
def dispensedAmount (st : BillDispenserState) (ue le : Int) : Int :=
  ue * st.upper_box_value + le * st.lower_box_value

/-- Modelled from the spec wording of claim C2, for comparison with
`dispensePlan`: the higher-denomination count is capped by inventory first and
the remainder is computed from the capped count. -/
def specDispensePlan (h l hcnt lcnt change : Int) : Int × Int :=
  let nH := min (Int.fdiv change h) hcnt
  let r := change - nH * h
  (nH, min (Int.fdiv r l) lcnt)

/-- Claim C2 counterexample: with denominations 10000/5000 kopecks, counts
(1, 10) and change 25000, the code requests (1, 1) while the claimed formula
requests (1, 3): the code computes the remainder from `change mod H` before
capping the higher-denomination count by inventory. -/
theorem dispense_plan_remainder_before_cap :
    dispensePlan
      { upper_box_value := 10000, lower_box_value := 5000,
        upper_box_count := 1, lower_box_count := 10 } 25000 = (1, 1) ∧
    specDispensePlan 10000 5000 1 10 25000 = (1, 3) ∧
    dispensePlan
      { upper_box_value := 10000, lower_box_value := 5000,
        upper_box_count := 1, lower_box_count := 10 } 25000 ≠
      specDispensePlan 10000 5000 1 10 25000 := by
  decide

/-- Claim C2 (amended): with box denominations `H ≥ L > 0`, the dispenser is
requested `min (change div H) h_cnt` bills of `H` and
`min ((change mod H) div L) l_cnt` bills of `L` - the remainder is taken
before the inventory cap - and after the device reports exit counts the
stored counts are reduced by exactly those exit counts (clamped at zero); in
particular with denominations 10000 and 5000 kopecks and counts (3,3),
`dispense_change 25000` requests (2,1), the exit counts (2,1) update the
stored counts to (1,2), and the remaining amount is 0. -/
theorem dispense_plan_and_accounting (h l uc lc a ue le : Int)
    (hHL : l ≤ h) (hL : 0 < l) (hue : ue ≤ uc) (hle : le ≤ lc) :
    dispensePlan
      { upper_box_value := h, lower_box_value := l,
        upper_box_count := uc, lower_box_count := lc } a =
      (min (Int.fdiv a h) uc, min (Int.fdiv (Int.fmod a h) l) lc) ∧
    subtract_bills uc lc ue le = (uc - ue, lc - le) ∧
    dispensePlan
      { upper_box_value := 10000, lower_box_value := 5000,
        upper_box_count := 3, lower_box_count := 3 } 25000 = (2, 1) ∧
    subtract_bills 3 3 2 1 = (1, 2) ∧
    (25000 : Int) - dispensedAmount
      { upper_box_value := 10000, lower_box_value := 5000,
        upper_box_count := 3, lower_box_count := 3 } 2 1 = 0 := by
  have hH : 0 < h := lt_of_lt_of_le hL hHL
  refine ⟨?_, ?_, by decide, by decide, by decide⟩
  · unfold dispensePlan
    have hguard : ¬(h ≤ 0 ∧ l ≤ 0) := by omega
    simp only [hguard, if_false]
    simp [max_eq_left hHL, min_eq_right hHL, hH, hL, hHL]
  · unfold subtract_bills
    rw [Prod.mk.injEq]
    constructor <;> omega

/-- Claim C2 witness. -/
theorem dispense_plan_and_accounting_witness :
    dispensePlan
      { upper_box_value := 10000, lower_box_value := 5000,
        upper_box_count := 3, lower_box_count := 3 } 25000 =
      (min (Int.fdiv 25000 10000) 3, min (Int.fdiv (Int.fmod 25000 10000) 5000) 3) ∧
    subtract_bills 3 3 2 1 = (3 - 2, 3 - 1) :=
  ⟨(dispense_plan_and_accounting 10000 5000 3 3 25000 2 1
      (by decide) (by decide) (by decide) (by decide)).1,
   (dispense_plan_and_accounting 10000 5000 3 3 25000 2 1
      (by decide) (by decide) (by decide) (by decide)).2.1⟩

/-! ## ccTalk coin acceptor event processing (devices_v2/devices/cctalk_coin_acceptor.py) -/

/-- `CCTALK_COIN_VALUES` (`cctalk_coin_acceptor.py` lines 23-28): the static
slot-to-kopeck table. -/
def CCTALK_COIN_VALUES (slot : Nat) : Option Nat :=
  if slot = 10 then some 100
  else if slot = 12 then some 200
  else if slot = 14 then some 500
  else if slot = 16 then some 1000
  else none

/-- One iteration of the event loop of `CcTalkAcceptor._process_events`
(`cctalk_coin_acceptor.py` lines 204-234): skip out-of-range indices, skip
status-only events (slot 0), emit the table value for known slots, skip
unknown slots. -/
def creditStep (events acc : List Nat) (i : Nat) : List Nat :=
  if events.length ≤ 1 + 2 * i + 1 then acc
  else if events.getD (1 + 2 * i) 0 = 0 then acc
  else
    match CCTALK_COIN_VALUES (events.getD (1 + 2 * i) 0) with
    | some v => acc ++ [v]
    | none => acc

/-- The CoinCredit values emitted for the first `n` (slot, status) pairs. -/
def creditsFrom (events : List Nat) (n : Nat) : List Nat :=
  (List.range n).foldl (creditStep events) []

/-- `CcTalkAcceptor._process_events` (`cctalk_coin_acceptor.py` lines
187-236): result is the list of emitted CoinCredit values and the new last
event counter.  Python computes `(cur - last + 256) % 256` on unbounded ints;
for `last < 256` this equals `(cur + 256 - last) % 256` on `Nat`. -/
def process_events (last : Nat) (events : List Nat) : List Nat × Nat :=
  let cur := events.getD 0 0
  if cur = last then ([], last)
  else
    let num_events_by_counter := (cur + 256 - last) % 256
    let num_events_in_buffer := (events.length - 1) / 2
    (creditsFrom events (min num_events_by_counter num_events_in_buffer), cur)

lemma creditsFrom_succ (events : List Nat) (n : Nat) :
    creditsFrom events (n + 1) = creditStep events (creditsFrom events n) n := by
  unfold creditsFrom
  rw [List.range_succ, List.foldl_append]
  rfl

lemma creditsFrom_mem (events : List Nat) (n v : Nat)
    (hv : v ∈ creditsFrom events n) :
    ∃ i, i < n ∧ events.getD (1 + 2 * i) 0 ≠ 0 ∧
      CCTALK_COIN_VALUES (events.getD (1 + 2 * i) 0) = some v := by
  induction n with
  | zero => simp [creditsFrom] at hv
  | succ n ih =>
    rw [creditsFrom_succ] at hv
    unfold creditStep at hv
    by_cases h1 : events.length ≤ 1 + 2 * n + 1
    · rw [if_pos h1] at hv
      obtain ⟨i, hi, h⟩ := ih hv
      exact ⟨i, by omega, h⟩
    · rw [if_neg h1] at hv
      by_cases h2 : events.getD (1 + 2 * n) 0 = 0
      · rw [if_pos h2] at hv
        obtain ⟨i, hi, h⟩ := ih hv
        exact ⟨i, by omega, h⟩
      · rw [if_neg h2] at hv
        cases hcv : CCTALK_COIN_VALUES (events.getD (1 + 2 * n) 0) with
        | none =>
          rw [hcv] at hv
          obtain ⟨i, hi, h⟩ := ih hv
          exact ⟨i, by omega, h⟩
        | some w =>
          rw [hcv] at hv
          rcases List.mem_append.mp hv with h | h
          · obtain ⟨i, hi, hh⟩ := ih h
            exact ⟨i, by omega, hh⟩
          · have hw : v = w := by simpa using h
            exact ⟨n, by omega, h2, by rw [hcv, hw]⟩

/-- Claim C8 (amended): on each poll the driver computes
`(counter_now - counter_last) mod 256` new events, clamped to the number of
(slot, status) pairs present in the reply (5 in a full reply); each new event
whose non-zero slot is listed in the static table emits one CoinCredit with
the table value, slot-0 and unknown-slot events emit nothing, and the last
counter is then set to the current counter.  In particular with last counter
0xFE and reply `[0x01, 10, 0]`, one CoinCredit of value 100 is emitted and
the last counter becomes 0x01. -/
theorem cctalk_poll_event_processing (last : Nat) (events : List Nat)
    (hlast : last < 256) (hne : events.getD 0 0 ≠ last) :
    (process_events last events).2 = events.getD 0 0 ∧
    (process_events last events).1 =
      creditsFrom events
        (min ((events.getD 0 0 + 256 - last) % 256) ((events.length - 1) / 2)) ∧
    (∀ n v, v ∈ creditsFrom events n →
      ∃ i, i < n ∧ events.getD (1 + 2 * i) 0 ≠ 0 ∧
        CCTALK_COIN_VALUES (events.getD (1 + 2 * i) 0) = some v) ∧
    process_events 0xFE [0x01, 10, 0] = ([100], 0x01) := by
  refine ⟨?_, ?_, fun n v hv => creditsFrom_mem events n v hv, by decide⟩
  · unfold process_events
    rw [if_neg hne]
  · unfold process_events
    rw [if_neg hne]

/-- Claim C8 counterexample: reply `[0x01, 11, 0]` with last counter 0
carries one new event with the non-zero slot 11, yet no CoinCredit is
emitted, because slot 11 is not in the static table - contrary to the claim
that every new event with a non-zero slot emits a CoinCredit. -/
theorem cctalk_unknown_slot_emits_nothing :
    process_events 0 [0x01, 11, 0] = ([], 1) := by
  decide

/-- Claim C8 witness. -/
theorem cctalk_poll_event_processing_witness :
    (process_events 0xFE [0x01, 10, 0]).2 = 0x01 ∧
    process_events 0xFE [0x01, 10, 0] = ([100], 0x01) :=
  ⟨by
    have h := cctalk_poll_event_processing 0xFE [0x01, 10, 0] (by decide) (by decide)
    simpa using h.1,
   (cctalk_poll_event_processing 0xFE [0x01, 10, 0] (by decide) (by decide)).2.2.2⟩

/-! ## SSP byte helpers and key exchange (devices_v2/devices/coin_acceptor/utils.py) -/

/-- `uint32_le` (`utils.py` lines 163-176): little-endian 4-byte encoding. -/
def u32le (n : Nat) : List Nat :=
  [n % 256, (n >>> 8) % 256, (n >>> 16) % 256, (n >>> 24) % 256]

/-- `struct.pack` with format `<Q` (`utils.py` lines 147-160 and 512):
little-endian 8-byte encoding. -/
def u64le (n : Nat) : List Nat :=
  [n % 256, (n >>> 8) % 256, (n >>> 16) % 256, (n >>> 24) % 256,
   (n >>> 32) % 256, (n >>> 40) % 256, (n >>> 48) % 256, (n >>> 56) % 256]

/-- `int.from_bytes(-, byteorder = little)`. -/
def leNat : List Nat → Nat
  | [] => 0
  | b :: rest => b + 256 * leNat rest

lemma leNat_u32le (n : Nat) (h : n < 2 ^ 32) : leNat (u32le n) = n := by
  simp only [u32le, leNat, Nat.shiftRight_eq_div_pow]
  norm_num
  omega

lemma leNat_append (xs ys : List Nat) :
    leNat (xs ++ ys) = leNat xs + 256 ^ xs.length * leNat ys := by
  induction xs with
  | nil => simp [leNat]
  | cons x xs ih =>
    show x + 256 * leNat (xs ++ ys) =
      (x + 256 * leNat xs) + 256 ^ (xs.length + 1) * leNat ys
    rw [ih]
    ring

/-- The outputs of `generate_keys` (`utils.py` lines 444-472).  The two
random primes and the random host exponent are inputs of the model; the
function swaps the two primes so that the generator is the larger one and
computes the host intermediate key by modular exponentiation. -/
structure SSPKeys where
  generator : Nat
  modulus : Nat
  hostRandom : Nat
  hostInter : Nat
deriving DecidableEq

/-- `generate_keys` (`utils.py` lines 444-472). -/
def generate_keys (p1 p2 host_random : Nat) : SSPKeys :=
  let g := if p1 < p2 then p2 else p1
  let m := if p1 < p2 then p1 else p2
  { generator := g, modulus := m, hostRandom := host_random,
    hostInter := g ^ host_random % m }

/-- The preshared fixed key `0123456701234567` as bytes (`index.py` line 51,
decoded by `bytes.fromhex` in `utils.py` line 509). -/
def fixedKeyBytes : List Nat := [0x01, 0x23, 0x45, 0x67, 0x01, 0x23, 0x45, 0x67]

/-- `create_ssp_host_encryption_key` (`utils.py` lines 475-520): the slave
intermediate key buffer is zero-padded to 8 bytes, read as a little-endian
integer, raised to the host exponent mod the modulus; the AES key is the
reversed fixed key followed by the 8-byte little-endian shared key.  Returns
the shared key and the 16-byte AES key. -/
def create_ssp_host_encryption_key (slave_buf : List Nat)
    (host_random modulus : Nat) : Nat × List Nat :=
  let buf := if slave_buf.length < 8
             then slave_buf ++ List.replicate (8 - slave_buf.length) 0
             else slave_buf
  let slave_inter_key := leNat buf
  let key := slave_inter_key ^ host_random % modulus
  (key, fixedKeyBytes.reverse ++ u64le key)

/-- Claim C5 counterexample: 32771 is a 16-bit prime, and when both calls of
`randprime` return 32771 the generator equals the modulus, so the key
exchange does not always pick `g > m`; the code only guarantees `g ≥ m`. -/
theorem generate_keys_equal_primes :
    Nat.Prime 32771 ∧ 2 ^ 15 ≤ 32771 ∧ 32771 < 2 ^ 16 ∧
    (generate_keys 32771 32771 5).generator = (generate_keys 32771 32771 5).modulus := by
  refine ⟨by norm_num, by norm_num, by norm_num, rfl⟩

/-- Claim C5 (amended): the key exchange picks 16-bit primes `g` and `m` with
`g ≥ m` (they are equal exactly when the two sampled primes coincide), a
secret `x` in `[1, 2^31)`, computes `hostInter = g^x mod m`, and derives the
16-byte AES key as the 8 fixed-key bytes reversed followed by the 8-byte
little-endian encoding of `slaveInter^x mod m`. -/
theorem ssp_key_exchange_spec (p1 p2 x : Nat) (slave_buf : List Nat) (k : SSPKeys)
    (hp1 : Nat.Prime p1) (hp2 : Nat.Prime p2)
    (hlo1 : 2 ^ 15 ≤ p1) (hhi1 : p1 < 2 ^ 16)
    (hlo2 : 2 ^ 15 ≤ p2) (hhi2 : p2 < 2 ^ 16)
    (hx1 : 1 ≤ x) (hx2 : x < 2 ^ 31)
    (hk : k = generate_keys p1 p2 x) :
    Nat.Prime k.generator ∧ 2 ^ 15 ≤ k.generator ∧ k.generator < 2 ^ 16 ∧
    Nat.Prime k.modulus ∧ 2 ^ 15 ≤ k.modulus ∧ k.modulus < 2 ^ 16 ∧
    k.modulus ≤ k.generator ∧
    (k.generator = k.modulus → p1 = p2) ∧
    k.hostRandom = x ∧
    k.hostInter = k.generator ^ x % k.modulus ∧
    (create_ssp_host_encryption_key slave_buf x k.modulus).2 =
      fixedKeyBytes.reverse ++ u64le (create_ssp_host_encryption_key slave_buf x k.modulus).1 ∧
    (create_ssp_host_encryption_key slave_buf x k.modulus).2.length = 16 := by
  subst hk
  by_cases hlt : p1 < p2
  · have hg : (generate_keys p1 p2 x).generator = p2 := by simp [generate_keys, hlt]
    have hm : (generate_keys p1 p2 x).modulus = p1 := by simp [generate_keys, hlt]
    refine ⟨by rw [hg]; exact hp2, by rw [hg]; exact hlo2, by rw [hg]; exact hhi2,
      by rw [hm]; exact hp1, by rw [hm]; exact hlo1, by rw [hm]; exact hhi1,
      by rw [hg, hm]; omega, by rw [hg, hm]; omega, rfl, rfl, rfl, ?_⟩
    rfl
  · have hg : (generate_keys p1 p2 x).generator = p1 := by simp [generate_keys, hlt]
    have hm : (generate_keys p1 p2 x).modulus = p2 := by simp [generate_keys, hlt]
    refine ⟨by rw [hg]; exact hp1, by rw [hg]; exact hlo1, by rw [hg]; exact hhi1,
      by rw [hm]; exact hp2, by rw [hm]; exact hlo2, by rw [hm]; exact hhi2,
      by rw [hg, hm]; omega, by rw [hg, hm]; omega, rfl, rfl, rfl, ?_⟩
    rfl

/-- Claim C5 witness. -/
theorem ssp_key_exchange_spec_witness :
    (generate_keys 32771 32779 12345).modulus ≤ (generate_keys 32771 32779 12345).generator ∧
    (generate_keys 32771 32779 12345).hostInter =
      (generate_keys 32771 32779 12345).generator ^ 12345 % (generate_keys 32771 32779 12345).modulus ∧
    (create_ssp_host_encryption_key [0x67, 0x2b, 0, 0, 0, 0, 0, 0] 12345
        (generate_keys 32771 32779 12345).modulus).2.length = 16 := by
  have h := ssp_key_exchange_spec 32771 32779 12345 [0x67, 0x2b, 0, 0, 0, 0, 0, 0]
    (generate_keys 32771 32779 12345)
    (by norm_num) (by norm_num) (by norm_num) (by norm_num) (by norm_num) (by norm_num)
    (by norm_num) (by norm_num) rfl
  exact ⟨h.2.2.2.2.2.2.1, h.2.2.2.2.2.2.2.2.2.1, h.2.2.2.2.2.2.2.2.2.2.2⟩

/-! ## SSP framing, byte stuffing and receive parsing
(devices_v2/devices/coin_acceptor/utils.py, parser.py, index.py) -/

/-- SSP frame start byte (`utils.py` line 11). -/
def STX : Nat := 0x7f

/-- SSP encrypted-payload marker (`utils.py` line 12). -/
def STEX : Nat := 0x7e

/-- One bit step of the SSP CRC16 (`utils.py` lines 137-141): the register is
not yet masked to 16 bits inside the inner loop, exactly as in the source. -/
def sspBit (c : Nat) : Nat :=
  if c &&& 0x8000 ≠ 0 then (c <<< 1) ^^^ 0x8005 else c <<< 1

/-- One byte step of `crc16` (`utils.py` lines 134-142): xor the byte shifted
into the high half, run eight bit steps, then mask to 16 bits. -/
def sspByteStep (crc b : Nat) : Nat := (sspBit^[8] (crc ^^^ (b <<< 8))) &&& 0xffff

/-- The 16-bit value of `crc16` (`utils.py` lines 124-144), seed 0xffff. -/
def ssp_crc16_val (source : List Nat) : Nat := source.foldl sspByteStep 0xffff

/-- `crc16` (`utils.py` lines 124-144): two little-endian CRC bytes. -/
def ssp_crc16 (source : List Nat) : List Nat :=
  [ssp_crc16_val source % 256, (ssp_crc16_val source >>> 8) % 256]

/-- `stuff_buffer` (`utils.py` lines 379-397): duplicate every 0x7f byte. -/
def stuff_buffer : List Nat → List Nat
  | [] => []
  | b :: rest =>
    if b = STX then b :: b :: stuff_buffer rest else b :: stuff_buffer rest

/-- The stuffed form of a single byte. -/
def stuffByte (b : Nat) : List Nat := if b = STX then [b, b] else [b]

/-- `get_packet` (`utils.py` lines 524-561) without an encryption key:
payload is `command :: args`, framed with the sequence byte, length byte and
CRC16, then stuffed behind the leading STX. -/
def get_packet_plain (command_code : Nat) (arg_bytes : List Nat)
    (sequence_byte : Nat) : List Nat :=
  let data_to_send := command_code :: arg_bytes
  let packet := sequence_byte :: data_to_send.length :: data_to_send
  STX :: stuff_buffer (packet ++ ssp_crc16 packet)

/-- The plain block built by the encrypted path of `get_packet` (`utils.py`
line 538): `elen :: ecount(4, LE) ++ command :: args ++ padding`. -/
def ssp_plain_block (command_code : Nat) (arg_bytes padding_bytes : List Nat)
    (e_count : Nat) : List Nat :=
  (arg_bytes.length + 1) :: (u32le e_count ++ (command_code :: arg_bytes) ++ padding_bytes)

/-- The block handed to AES by `get_packet` (`utils.py` lines 541-544): the
plain block followed by its own CRC16. -/
def ssp_enc_input (command_code : Nat) (arg_bytes padding_bytes : List Nat)
    (e_count : Nat) : List Nat :=
  ssp_plain_block command_code arg_bytes padding_bytes e_count ++
    ssp_crc16 (ssp_plain_block command_code arg_bytes padding_bytes e_count)

/-- `get_packet` (`utils.py` lines 524-561) with an encryption key: the block
`ssp_enc_input` is encrypted (the AES primitive of the external crypto
library is a parameter `enc`); the framed payload is the STEX marker followed
by the ciphertext. -/
def get_packet_encrypted (enc : List Nat → List Nat) (command_code : Nat)
    (arg_bytes : List Nat) (sequence_byte e_count : Nat)
    (padding_bytes : List Nat) : List Nat :=
  let data_to_send := STEX :: enc (ssp_enc_input command_code arg_bytes padding_bytes e_count)
  let packet := sequence_byte :: data_to_send.length :: data_to_send
  STX :: stuff_buffer (packet ++ ssp_crc16 packet)

/-- The destuffed frame for a payload `dts` behind sequence byte `sb`. -/
def ssp_unstuffed_frame (sb : Nat) (dts : List Nat) : List Nat :=
  STX :: ((sb :: dts.length :: dts) ++ ssp_crc16 (sb :: dts.length :: dts))

/-- The state of `SSPParser` (`parser.py` lines 12-19). -/
structure ParserState where
  counter : Nat
  check_stuff : Nat
  packet_length : Nat
  buffer : List Nat
deriving DecidableEq

/-- The reset parser state (`parser.py` lines 12-19). -/
def initParserState : ParserState := ⟨0, 0, 0, []⟩

/-- The five-way branch of `process_byte` in `SSPParser.parse` (`parser.py`
lines 31-58): packet start, restart on a stuffed start byte, the two
destuffing branches, and the plain append. -/
def parserBranch (s : ParserState) (b : Nat) : ParserState :=
  if b = STX ∧ s.counter = 0 then
    { s with buffer := [b], counter := 1 }
  else if b = STX ∧ s.counter = 1 then
    initParserState
  else if s.check_stuff = 1 then
    if b ≠ STX then
      { s with buffer := [STX, b], counter := 2, check_stuff := 0 }
    else
      { s with buffer := s.buffer ++ [b], counter := s.counter + 1, check_stuff := 0 }
  else if b = STX then
    { s with check_stuff := 1 }
  else
    { s with buffer := s.buffer ++ [b], counter := s.counter + 1 }

/-- The length-byte capture of `process_byte` (`parser.py` lines 60-62): when
the counter reaches 3, the expected packet length is the length byte plus
5. -/
def parserSetLength (s : ParserState) : ParserState :=
  if s.counter = 3 then { s with packet_length := s.buffer.getD 2 0 + 5 } else s

/-- The completion check of `process_byte` (`parser.py` lines 64-72): when
the buffer has reached the expected length, emit it and reset. -/
def parserFinish (s : ParserState) : ParserState × List (List Nat) :=
  if 0 < s.packet_length ∧ s.buffer.length = s.packet_length then
    (initParserState, [s.buffer])
  else
    (s, [])

/-- `process_byte` of `SSPParser.parse` (`parser.py` lines 26-74): returns
the new state and the (zero or one) completed packets. -/
def process_byte (s : ParserState) (b : Nat) : ParserState × List (List Nat) :=
  parserFinish (parserSetLength (parserBranch s b))

/-- `SSPParser.parse` (`parser.py` lines 21-88): fold `process_byte` over the
chunk, accumulating completed packets. -/
def parseChunk (s : ParserState) (chunk : List Nat) : ParserState × List (List Nat) :=
  chunk.foldl (fun acc b =>
    ((process_byte acc.1 b).1, acc.2 ++ (process_byte acc.1 b).2)) (s, [])

/-- `extract_packet_data` (`utils.py` lines 400-441), over a destuffed
packet.  The AES decryption of the external crypto library is the parameter
`dec`; `dec = none` models a session without an encryption key. -/
def extract_packet_data (dec : Option (List Nat → List Nat))
    (buffer : List Nat) (count : Nat) : Except String (List Nat) :=
  if buffer.getD 0 0 ≠ STX then Except.error "Unknown response"
  else
    let buf := buffer.drop 1
    let data_length := buf.getD 1 0
    let packet_data := (buf.drop 2).take data_length
    let crc_data := buf.take (2 + data_length)
    let received_crc := (buf.drop (2 + data_length)).take 2
    if received_crc ≠ ssp_crc16 crc_data then Except.error "Wrong CRC16"
    else
      match dec with
      | some d =>
        if packet_data.getD 0 0 = STEX then
          let decrypted := d (packet_data.drop 1)
          let e_length := decrypted.getD 0 0
          let e_count := leNat ((decrypted.drop 1).take 4)
          let extracted := (decrypted.drop 5).take e_length
          if e_count ≠ count + 1 then Except.error "Encrypted counter mismatch"
          else Except.ok extracted
        else Except.ok packet_data
      | none => Except.ok packet_data

/-- One attempt of `SSP._send_to_device` (`index.py` lines 437-477) after a
reply packet `rx_buffer` has been received: extract the data (which raises on
CRC or counter mismatch), check the sequence byte, and increment the host
encryption counter only when a key is in use and the reply payload begins
with STEX.  Returns the result and the new host counter. -/
def send_attempt (dec : Option (List Nat → List Nat)) (e_count : Nat)
    (tx_sb : Nat) (rx_buffer : List Nat) : Except String (List Nat) × Nat :=
  match extract_packet_data dec rx_buffer e_count with
  | Except.error e => (Except.error e, e_count)
  | Except.ok data =>
    if tx_sb ≠ rx_buffer.getD 1 0 then (Except.error "Sequence flag mismatch", e_count)
    else if dec.isSome ∧ rx_buffer.getD 3 0 = STEX then (Except.ok data, e_count + 1)
    else (Except.ok data, e_count)

/-- `SSP.init_encryption` (`index.py` lines 205-216) sets the host encryption
counter to zero. -/
def init_encryption_e_count : Nat := 0

lemma stuff_buffer_cons (b : Nat) (rest : List Nat) :
    stuff_buffer (b :: rest) = stuffByte b ++ stuff_buffer rest := by
  by_cases hb : b = STX <;> simp [stuff_buffer, stuffByte, hb]

lemma stuff_buffer_append (xs ys : List Nat) :
    stuff_buffer (xs ++ ys) = stuff_buffer xs ++ stuff_buffer ys := by
  induction xs with
  | nil => simp [stuff_buffer]
  | cons x xs ih =>
    rw [List.cons_append, stuff_buffer_cons, stuff_buffer_cons, ih, List.append_assoc]

lemma parseChunk_acc (chunk : List Nat) (s : ParserState) (a : List (List Nat)) :
    chunk.foldl (fun acc b =>
      ((process_byte acc.1 b).1, acc.2 ++ (process_byte acc.1 b).2)) (s, a) =
      ((parseChunk s chunk).1, a ++ (parseChunk s chunk).2) := by
  induction chunk generalizing s a with
  | nil => simp [parseChunk]
  | cons c cs ih =>
    rw [List.foldl_cons]
    rw [ih]
    have h2 : parseChunk s (c :: cs) =
        ((parseChunk (process_byte s c).1 cs).1,
         (process_byte s c).2 ++ (parseChunk (process_byte s c).1 cs).2) := by
      unfold parseChunk
      rw [List.foldl_cons]
      have := ih (process_byte s c).1 (([] : List (List Nat)) ++ (process_byte s c).2)
      simpa using this
    rw [h2]
    simp [List.append_assoc]

lemma parseChunk_append (s : ParserState) (xs ys : List Nat) :
    parseChunk s (xs ++ ys) =
      ((parseChunk (parseChunk s xs).1 ys).1,
       (parseChunk s xs).2 ++ (parseChunk (parseChunk s xs).1 ys).2) := by
  unfold parseChunk
  rw [List.foldl_append]
  have h1 : List.foldl (fun acc b =>
      ((process_byte acc.1 b).1, acc.2 ++ (process_byte acc.1 b).2)) (s, []) xs =
      parseChunk s xs := rfl
  rw [h1]
  have h2 : parseChunk s xs = ((parseChunk s xs).1, (parseChunk s xs).2) := rfl
  rw [h2, parseChunk_acc]
  rfl

lemma parserBranch_append (s : ParserState) (b : Nat) (hb : b ≠ STX)
    (hcs : s.check_stuff = 0) :
    parserBranch s b = { s with buffer := s.buffer ++ [b], counter := s.counter + 1 } := by
  simp [parserBranch, hb, hcs]

lemma parserBranch_stx_mark (s : ParserState) (hc : 2 ≤ s.counter)
    (hcs : s.check_stuff = 0) :
    parserBranch s STX = { s with check_stuff := 1 } := by
  have h0 : s.counter ≠ 0 := by omega
  have h1 : s.counter ≠ 1 := by omega
  simp [parserBranch, hcs, h0, h1]

lemma parserBranch_stx_stuffed (s : ParserState) (hc : 2 ≤ s.counter)
    (hcs : s.check_stuff = 1) :
    parserBranch s STX =
      { s with buffer := s.buffer ++ [STX], counter := s.counter + 1, check_stuff := 0 } := by
  have h0 : s.counter ≠ 0 := by omega
  have h1 : s.counter ≠ 1 := by omega
  simp [parserBranch, hcs, h0, h1]

lemma ParserState_update_pl (s : ParserState) (x : Nat) (h : s.packet_length = x) :
    ({ s with packet_length := x } : ParserState) = s := by
  cases s
  simp_all

lemma parserSetLength_of_ne (s : ParserState) (h : s.counter ≠ 3) :
    parserSetLength s = s := by
  simp [parserSetLength, h]

lemma parserFinish_done (s : ParserState) (h1 : 0 < s.packet_length)
    (h2 : s.buffer.length = s.packet_length) :
    parserFinish s = (initParserState, [s.buffer]) := by
  simp [parserFinish, h1, h2]

lemma parserFinish_not (s : ParserState)
    (h : ¬(0 < s.packet_length ∧ s.buffer.length = s.packet_length)) :
    parserFinish s = (s, []) := by
  unfold parserFinish
  rw [if_neg h]

lemma parse_fill_step (y L : Nat) (buf : List Nat)
    (h3 : 3 ≤ buf.length) (hlt : buf.length < L + 5) (hL : buf.getD 2 0 = L) :
    parseChunk ⟨buf.length, 0, L + 5, buf⟩ (stuffByte y) =
      (if buf.length + 1 = L + 5 then (initParserState, [buf ++ [y]])
       else (⟨buf.length + 1, 0, L + 5, buf ++ [y]⟩, [])) := by
  have hsl : parserSetLength (⟨buf.length + 1, 0, L + 5, buf ++ [y]⟩ : ParserState) =
      ⟨buf.length + 1, 0, L + 5, buf ++ [y]⟩ :=
    parserSetLength_of_ne _ (by simp; omega)
  have hfin : parserFinish (⟨buf.length + 1, 0, L + 5, buf ++ [y]⟩ : ParserState) =
      (if buf.length + 1 = L + 5 then (initParserState, [buf ++ [y]])
       else (⟨buf.length + 1, 0, L + 5, buf ++ [y]⟩, [])) := by
    by_cases hdone : buf.length + 1 = L + 5
    · rw [if_pos hdone]
      exact parserFinish_done _ (by simp) (by simp [hdone])
    · rw [if_neg hdone]
      apply parserFinish_not
      simp
      omega
  by_cases hy : y = STX
  · subst hy
    have hsby : stuffByte STX = [STX, STX] := by simp [stuffByte]
    rw [hsby]
    have hb1 : process_byte ⟨buf.length, 0, L + 5, buf⟩ STX =
        (⟨buf.length, 1, L + 5, buf⟩, []) := by
      unfold process_byte
      rw [parserBranch_stx_mark _ (by simp; omega) rfl]
      have hsl1 : parserSetLength (⟨buf.length, 1, L + 5, buf⟩ : ParserState) =
          ⟨buf.length, 1, L + 5, buf⟩ := by
        unfold parserSetLength
        split
        · exact ParserState_update_pl _ _ (by rw [hL])
        · rfl
      show parserFinish (parserSetLength ⟨buf.length, 1, L + 5, buf⟩) = _
      rw [hsl1]
      apply parserFinish_not
      simp
      omega
    have hb2 : process_byte ⟨buf.length, 1, L + 5, buf⟩ STX =
        (if buf.length + 1 = L + 5 then (initParserState, [buf ++ [STX]])
         else (⟨buf.length + 1, 0, L + 5, buf ++ [STX]⟩, [])) := by
      unfold process_byte
      rw [parserBranch_stx_stuffed _ (by simp; omega) rfl]
      show parserFinish (parserSetLength ⟨buf.length + 1, 0, L + 5, buf ++ [STX]⟩) = _
      rw [hsl, hfin]
    unfold parseChunk
    simp only [List.foldl_cons, List.foldl_nil, hb1]
    simp only [hb2]
    split <;> simp
  · have hsby : stuffByte y = [y] := by simp [stuffByte, hy]
    rw [hsby]
    have hb : process_byte ⟨buf.length, 0, L + 5, buf⟩ y =
        (if buf.length + 1 = L + 5 then (initParserState, [buf ++ [y]])
         else (⟨buf.length + 1, 0, L + 5, buf ++ [y]⟩, [])) := by
      unfold process_byte
      rw [parserBranch_append _ _ hy rfl]
      show parserFinish (parserSetLength ⟨buf.length + 1, 0, L + 5, buf ++ [y]⟩) = _
      rw [hsl, hfin]
    unfold parseChunk
    simp only [List.foldl_cons, List.foldl_nil, hb]
    split <;> simp

lemma parse_fill (ys : List Nat) : ∀ (L : Nat) (buf : List Nat),
    3 ≤ buf.length → buf.getD 2 0 = L → buf.length + ys.length = L + 5 → ys ≠ [] →
    parseChunk ⟨buf.length, 0, L + 5, buf⟩ (stuff_buffer ys) =
      (initParserState, [buf ++ ys]) := by
  induction ys with
  | nil => intro L buf _ _ _ hne; exact absurd rfl hne
  | cons y ys ih =>
    intro L buf h3 hL hsum _
    rw [stuff_buffer_cons, parseChunk_append]
    have hlt : buf.length < L + 5 := by simp at hsum; omega
    rw [parse_fill_step y L buf h3 hlt hL]
    by_cases hys : ys = []
    · subst hys
      have hdone : buf.length + 1 = L + 5 := by simpa using hsum
      rw [if_pos hdone]
      simp [parseChunk, stuff_buffer]
    · have hne1 : ¬(buf.length + 1 = L + 5) := by
        have : 1 ≤ ys.length := List.length_pos.mpr hys
        simp at hsum
        omega
      rw [if_neg hne1]
      have hbuf1 : (buf ++ [y]).length = buf.length + 1 := by simp
      have happ := ih L (buf ++ [y]) (by simp; omega)
        (by rw [List.getD_append _ _ _ _ (by omega)]; exact hL)
        (by simp at hsum ⊢; omega) hys
      rw [hbuf1] at happ
      simp [happ, List.append_assoc]

lemma parse_head (sb L : Nat) (hsb : sb ≠ STX) :
    parseChunk initParserState (STX :: (stuffByte sb ++ stuffByte L)) =
      ((⟨3, 0, L + 5, [STX, sb, L]⟩ : ParserState), []) := by
  have hstep1 : process_byte initParserState STX = (⟨1, 0, 0, [STX]⟩, []) := by
    unfold process_byte parserBranch
    simp [initParserState, parserSetLength, parserFinish]
  have hstep2 : process_byte ⟨1, 0, 0, [STX]⟩ sb = (⟨2, 0, 0, [STX, sb]⟩, []) := by
    unfold process_byte
    rw [parserBranch_append _ _ hsb rfl]
    unfold parserSetLength parserFinish
    simp
  have hstep3 : parseChunk ⟨2, 0, 0, [STX, sb]⟩ (stuffByte L) =
      (⟨3, 0, L + 5, [STX, sb, L]⟩, []) := by
    have hfin3 : process_byte ⟨2, 0, 0, [STX, sb]⟩ L =
        (⟨3, 0, L + 5, [STX, sb, L]⟩, []) ∨ True := Or.inr trivial
    by_cases hLs : L = STX
    · subst hLs
      have hsby : stuffByte STX = [STX, STX] := by simp [stuffByte]
      rw [hsby]
      have hb1 : process_byte ⟨2, 0, 0, [STX, sb]⟩ STX = (⟨2, 1, 0, [STX, sb]⟩, []) := by
        unfold process_byte
        rw [parserBranch_stx_mark _ (by simp) rfl]
        unfold parserSetLength parserFinish
        simp
      have hb2 : process_byte ⟨2, 1, 0, [STX, sb]⟩ STX =
          (⟨3, 0, STX + 5, [STX, sb, STX]⟩, []) := by
        unfold process_byte
        rw [parserBranch_stx_stuffed _ (by simp) rfl]
        unfold parserSetLength parserFinish
        simp [STX]
      unfold parseChunk
      simp only [List.foldl_cons, List.foldl_nil, hb1]
      simp only [hb2]
      simp
    · have hsby : stuffByte L = [L] := by simp [stuffByte, hLs]
      rw [hsby]
      have hb : process_byte ⟨2, 0, 0, [STX, sb]⟩ L =
          (⟨3, 0, L + 5, [STX, sb, L]⟩, []) := by
        unfold process_byte
        rw [parserBranch_append _ _ hLs rfl]
        unfold parserSetLength parserFinish
        simp
      unfold parseChunk
      simp only [List.foldl_cons, List.foldl_nil, hb]
      simp
  have hsplit : STX :: (stuffByte sb ++ stuffByte L) =
      ([STX] ++ stuffByte sb) ++ stuffByte L := by simp
  rw [hsplit, parseChunk_append, parseChunk_append]
  have h1 : parseChunk initParserState [STX] = (⟨1, 0, 0, [STX]⟩, []) := by
    unfold parseChunk
    simp only [List.foldl_cons, List.foldl_nil, hstep1]
    simp
  have h2 : parseChunk ⟨1, 0, 0, [STX]⟩ (stuffByte sb) = (⟨2, 0, 0, [STX, sb]⟩, []) := by
    have hsby : stuffByte sb = [sb] := by simp [stuffByte, hsb]
    rw [hsby]
    unfold parseChunk
    simp only [List.foldl_cons, List.foldl_nil, hstep2]
    simp
  rw [h1]
  simp only [h2]
  simp only [hstep3]
  simp

lemma ssp_frame_parses (sb : Nat) (dts : List Nat) (hsb : sb ≠ STX) :
    parseChunk initParserState
      (STX :: stuff_buffer ((sb :: dts.length :: dts) ++ ssp_crc16 (sb :: dts.length :: dts))) =
      (initParserState,
       [STX :: ((sb :: dts.length :: dts) ++ ssp_crc16 (sb :: dts.length :: dts))]) := by
  have hdecomp : STX :: stuff_buffer ((sb :: dts.length :: dts) ++
      ssp_crc16 (sb :: dts.length :: dts)) =
      (STX :: (stuffByte sb ++ stuffByte dts.length)) ++
        stuff_buffer (dts ++ ssp_crc16 (sb :: dts.length :: dts)) := by
    have h1 : (sb :: dts.length :: dts) ++ ssp_crc16 (sb :: dts.length :: dts) =
        sb :: dts.length :: (dts ++ ssp_crc16 (sb :: dts.length :: dts)) := rfl
    rw [h1, stuff_buffer_cons, stuff_buffer_cons]
    simp [List.append_assoc]
  rw [hdecomp, parseChunk_append, parse_head sb dts.length hsb]
  have hcrclen : (ssp_crc16 (sb :: dts.length :: dts)).length = 2 := rfl
  have hfill := parse_fill (dts ++ ssp_crc16 (sb :: dts.length :: dts)) dts.length
    [STX, sb, dts.length] (by simp) (by simp)
    (by simp [hcrclen]; omega)
    (by simp [ssp_crc16])
  have hlen3 : ([STX, sb, dts.length] : List Nat).length = 3 := rfl
  rw [hlen3] at hfill
  simp only [hfill]
  simp

lemma extract_packet_data_eq (dec : Option (List Nat → List Nat)) (sb count : Nat)
    (dts : List Nat) :
    extract_packet_data dec
        (STX :: ((sb :: dts.length :: dts) ++ ssp_crc16 (sb :: dts.length :: dts))) count =
      (match dec with
       | some d =>
         if dts.getD 0 0 = STEX then
           if leNat (((d (dts.drop 1)).drop 1).take 4) ≠ count + 1 then
             Except.error "Encrypted counter mismatch"
           else Except.ok (((d (dts.drop 1)).drop 5).take ((d (dts.drop 1)).getD 0 0))
         else Except.ok dts
       | none => Except.ok dts) := by
  have hlen : (sb :: dts.length :: dts).length = 2 + dts.length := by simp; omega
  have e1 : ((sb :: dts.length :: dts) ++ ssp_crc16 (sb :: dts.length :: dts)).getD 1 0 =
      dts.length := rfl
  have e2 : (((sb :: dts.length :: dts) ++
      ssp_crc16 (sb :: dts.length :: dts)).drop 2).take dts.length = dts := by
    have hd : ((sb :: dts.length :: dts) ++ ssp_crc16 (sb :: dts.length :: dts)).drop 2 =
        dts ++ ssp_crc16 (sb :: dts.length :: dts) := rfl
    rw [hd]
    exact List.take_left' rfl
  have e3 : ((sb :: dts.length :: dts) ++
      ssp_crc16 (sb :: dts.length :: dts)).take (2 + dts.length) =
      sb :: dts.length :: dts := List.take_left' hlen
  have e4 : (((sb :: dts.length :: dts) ++
      ssp_crc16 (sb :: dts.length :: dts)).drop (2 + dts.length)).take 2 =
      ssp_crc16 (sb :: dts.length :: dts) := by
    rw [List.drop_left' hlen]
    simp [ssp_crc16]
  have hd1 : (STX :: ((sb :: dts.length :: dts) ++
      ssp_crc16 (sb :: dts.length :: dts))).drop 1 =
      (sb :: dts.length :: dts) ++ ssp_crc16 (sb :: dts.length :: dts) := rfl
  unfold extract_packet_data
  rw [if_neg (by simp [STX])]
  simp only [hd1, e1, e2, e3, e4]
  rw [if_neg (by simp)]

lemma ssp_enc_input_getD0 (cmd : Nat) (args pad : List Nat) (ec : Nat) :
    (ssp_enc_input cmd args pad ec).getD 0 0 = args.length + 1 := rfl

lemma ssp_enc_input_take4 (cmd : Nat) (args pad : List Nat) (ec : Nat) :
    ((ssp_enc_input cmd args pad ec).drop 1).take 4 = u32le ec := by
  show ((u32le ec ++ (cmd :: args) ++ pad) ++
      ssp_crc16 (ssp_plain_block cmd args pad ec)).take 4 = u32le ec
  rw [List.append_assoc, List.append_assoc]
  exact List.take_left' rfl

lemma ssp_enc_input_payload (cmd : Nat) (args pad : List Nat) (ec : Nat) :
    ((ssp_enc_input cmd args pad ec).drop 5).take (args.length + 1) = cmd :: args := by
  show (((u32le ec ++ (cmd :: args) ++ pad) ++
      ssp_crc16 (ssp_plain_block cmd args pad ec)).drop 4).take (args.length + 1) = cmd :: args
  rw [List.append_assoc, List.append_assoc,
    List.drop_left' (show (u32le ec).length = 4 from rfl)]
  exact List.take_left' (by simp)

/-- Claim C7 (amended): for every SSP frame produced by the encoder whose
sequence byte is not 0x7F, feeding the frame bytes to the receive parser
undoes the byte stuffing and yields exactly one packet - the unstuffed frame -
whose CRC16 check succeeds, and the original payload is recovered: for a
plain frame `extract_packet_data` returns `command :: args`; for an encrypted
frame, whenever the AES decryption inverts the encryption and the embedded
counter equals the host counter plus one, `extract_packet_data` also returns
`command :: args`.  (For a frame whose sequence byte is 0x7F the parser
misparses the start of the frame; see the counterexample.) -/
theorem ssp_encode_parse_roundtrip :
    (∀ (sb cmd count : Nat) (args : List Nat),
      sb ≠ 0x7f → sb < 256 → cmd < 256 → (∀ b ∈ args, b < 256) →
      args.length + 1 ≤ 255 →
      parseChunk initParserState (get_packet_plain cmd args sb) =
        (initParserState, [ssp_unstuffed_frame sb (cmd :: args)]) ∧
      extract_packet_data none (ssp_unstuffed_frame sb (cmd :: args)) count =
        Except.ok (cmd :: args)) ∧
    (∀ (enc dec : List Nat → List Nat) (sb cmd count : Nat) (args pad : List Nat),
      sb ≠ 0x7f → sb < 256 → cmd < 256 → (∀ b ∈ args, b < 256) →
      (∀ b ∈ enc (ssp_enc_input cmd args pad (count + 1)), b < 256) →
      pad.length = (16 - ((args.length + 1 + 7) % 16)) % 16 →
      count + 1 < 2 ^ 32 →
      (enc (ssp_enc_input cmd args pad (count + 1))).length + 1 ≤ 255 →
      dec (enc (ssp_enc_input cmd args pad (count + 1))) =
        ssp_enc_input cmd args pad (count + 1) →
      parseChunk initParserState
          (get_packet_encrypted enc cmd args sb (count + 1) pad) =
        (initParserState,
         [ssp_unstuffed_frame sb (STEX :: enc (ssp_enc_input cmd args pad (count + 1)))]) ∧
      extract_packet_data (some dec)
          (ssp_unstuffed_frame sb (STEX :: enc (ssp_enc_input cmd args pad (count + 1)))) count =
        Except.ok (cmd :: args)) := by
  constructor
  · intro sb cmd count args hsb _ _ _ _
    constructor
    · exact ssp_frame_parses sb (cmd :: args) hsb
    · rw [show ssp_unstuffed_frame sb (cmd :: args) =
          STX :: (((sb :: (cmd :: args).length :: (cmd :: args))) ++
            ssp_crc16 (sb :: (cmd :: args).length :: (cmd :: args))) from rfl]
      rw [extract_packet_data_eq none sb count (cmd :: args)]
  · intro enc dec sb cmd count args pad hsb _ _ _ _ _ hc32 _ hdec
    constructor
    · exact ssp_frame_parses sb (STEX :: enc (ssp_enc_input cmd args pad (count + 1))) hsb
    · rw [show ssp_unstuffed_frame sb (STEX :: enc (ssp_enc_input cmd args pad (count + 1))) =
          STX :: (((sb :: (STEX :: enc (ssp_enc_input cmd args pad (count + 1))).length ::
            (STEX :: enc (ssp_enc_input cmd args pad (count + 1))))) ++
            ssp_crc16 (sb :: (STEX :: enc (ssp_enc_input cmd args pad (count + 1))).length ::
              (STEX :: enc (ssp_enc_input cmd args pad (count + 1))))) from rfl]
      rw [extract_packet_data_eq (some dec) sb count
        (STEX :: enc (ssp_enc_input cmd args pad (count + 1)))]
      have hstex : (STEX :: enc (ssp_enc_input cmd args pad (count + 1))).getD 0 0 = STEX := rfl
      have hdrop : (STEX :: enc (ssp_enc_input cmd args pad (count + 1))).drop 1 =
          enc (ssp_enc_input cmd args pad (count + 1)) := rfl
      simp only [hstex, if_pos rfl, hdrop, hdec, ssp_enc_input_take4,
        ssp_enc_input_getD0, ssp_enc_input_payload]
      rw [leNat_u32le _ hc32]
      simp

/-- Claim C7 counterexample: for the frame encoding command 0x01 with no
arguments under sequence byte 0x7F, the parser yields no packet at all (the
stuffed sequence byte is taken for a new packet start and the frame is
misparsed), so the round trip fails for sequence byte 0x7F. -/
theorem ssp_roundtrip_fails_for_stx_sequence :
    (parseChunk initParserState (get_packet_plain 0x01 [] 0x7f)).2 = [] := by
  decide

set_option maxRecDepth 100000 in
/-- Claim C7 witness. -/
theorem ssp_encode_parse_roundtrip_witness :
    (parseChunk initParserState (get_packet_plain 0x11 [0x06] 0x80) =
      (initParserState, [ssp_unstuffed_frame 0x80 [0x11, 0x06]]) ∧
     extract_packet_data none (ssp_unstuffed_frame 0x80 [0x11, 0x06]) 0 =
      Except.ok [0x11, 0x06]) ∧
    (parseChunk initParserState
        (get_packet_encrypted id 0x11 [0x06] 0x80 1 [0, 0, 0, 0, 0, 0, 0]) =
      (initParserState,
       [ssp_unstuffed_frame 0x80 (STEX :: id (ssp_enc_input 0x11 [0x06] [0, 0, 0, 0, 0, 0, 0] 1))]) ∧
     extract_packet_data (some id)
        (ssp_unstuffed_frame 0x80 (STEX :: id (ssp_enc_input 0x11 [0x06] [0, 0, 0, 0, 0, 0, 0] 1))) 0 =
      Except.ok [0x11, 0x06]) := by
  constructor
  · exact ssp_encode_parse_roundtrip.1 0x80 0x11 0 [0x06]
      (by decide) (by decide) (by decide) (by decide) (by decide)
  · exact ssp_encode_parse_roundtrip.2 id id 0x80 0x11 0 [0x06] [0, 0, 0, 0, 0, 0, 0]
      (by decide) (by decide) (by decide) (by decide) (by decide) (by decide)
      (by decide) (by decide) rfl

/-- Claim C4: the host encryption counter starts at 0 after
`init_encryption`; for an encrypted reply (payload beginning with STEX) whose
embedded counter equals the host counter plus one, the exchange succeeds and
the host counter afterwards equals its pre-call value plus one; a reply whose
embedded counter differs is rejected with the counter-mismatch protocol error
and the host counter does not advance. -/
theorem ssp_ecount_invariant :
    init_encryption_e_count = 0 ∧
    (∀ (dec : List Nat → List Nat) (cipher rest : List Nat) (sb count elen c : Nat),
      dec cipher = elen :: (u32le c ++ rest) →
      c < 2 ^ 32 →
      (c = count + 1 →
        send_attempt (some dec) count sb (ssp_unstuffed_frame sb (STEX :: cipher)) =
          (Except.ok (((elen :: (u32le c ++ rest)).drop 5).take elen), count + 1)) ∧
      (c ≠ count + 1 →
        send_attempt (some dec) count sb (ssp_unstuffed_frame sb (STEX :: cipher)) =
          (Except.error "Encrypted counter mismatch", count))) := by
  refine ⟨rfl, fun dec cipher rest sb count elen c hdec hc32 => ?_⟩
  have hframe : ssp_unstuffed_frame sb (STEX :: cipher) =
      STX :: ((sb :: (STEX :: cipher).length :: (STEX :: cipher)) ++
        ssp_crc16 (sb :: (STEX :: cipher).length :: (STEX :: cipher))) := rfl
  have hextract := extract_packet_data_eq (some dec) sb count (STEX :: cipher)
  have hstex : (STEX :: cipher).getD 0 0 = STEX := rfl
  have hdrop : (STEX :: cipher).drop 1 = cipher := rfl
  simp only [hstex, hdrop, hdec, eq_self_iff_true, if_true] at hextract
  have htake4 : ((elen :: (u32le c ++ rest)).drop 1).take 4 = u32le c := by
    show (u32le c ++ rest).take 4 = u32le c
    exact List.take_left' rfl
  rw [htake4, leNat_u32le c hc32] at hextract
  have hgetD0 : (elen :: (u32le c ++ rest)).getD 0 0 = elen := rfl
  rw [hgetD0] at hextract
  rw [← hframe] at hextract
  have hg1 : (ssp_unstuffed_frame sb (STEX :: cipher)).getD 1 0 = sb := rfl
  have hg3 : (ssp_unstuffed_frame sb (STEX :: cipher)).getD 3 0 = STEX := rfl
  constructor
  · intro hmatch
    subst hmatch
    rw [if_neg (by simp)] at hextract
    unfold send_attempt
    rw [hextract]
    have hg1' : (ssp_unstuffed_frame sb (STEX :: cipher))[1]?.getD 0 = sb := rfl
    have hg3' : (ssp_unstuffed_frame sb (STEX :: cipher))[3]?.getD 0 = STEX := by
      simp [ssp_unstuffed_frame]
    simp [hg1', hg3']
  · intro hmis
    rw [if_pos hmis] at hextract
    unfold send_attempt
    rw [hextract]

/-- Claim C4 witness. -/
theorem ssp_ecount_invariant_witness :
    init_encryption_e_count = 0 ∧
    send_attempt (some (fun _ => [1, 1, 0, 0, 0, 9])) 0 0x80
      (ssp_unstuffed_frame 0x80 (STEX :: [0xAA])) = (Except.ok [9], 1) ∧
    send_attempt (some (fun _ => [1, 1, 0, 0, 0, 9])) 7 0x80
      (ssp_unstuffed_frame 0x80 (STEX :: [0xAA])) =
      (Except.error "Encrypted counter mismatch", 7) := by
  refine ⟨ssp_ecount_invariant.1, ?_, ?_⟩
  · have h := (ssp_ecount_invariant.2 (fun _ => [1, 1, 0, 0, 0, 9]) [0xAA] [9]
      0x80 0 1 1 rfl (by decide)).1 rfl
    simpa using h
  · have h := (ssp_ecount_invariant.2 (fun _ => [1, 1, 0, 0, 0, 9]) [0xAA] [9]
      0x80 7 1 1 rfl (by decide)).2 (by decide)
    simpa using h

end CashSystem
